import Mathlib

/-!
Verification of the wire-protocol engine of the repository
(instrumentation/DTX protocol, AFC file-conduit protocol, and the
NSKeyedArchiver object-archive decoder) against its natural-language
specification.

Buffers are modelled as `List Nat`, one entry per byte; multi-byte
little-endian reads and writes are spelled out arithmetically.  JavaScript
exceptions are modelled with `Except String`; `null` results with `Option`.
-/

set_option maxRecDepth 4000

namespace Spec2Proof

/-! ## Little-endian byte-level helpers

These model the Node.js `Buffer` accessors used by the codecs
(`writeUInt16LE`, `writeUInt32LE`, `writeInt32LE`, `writeBigUInt64LE` and
the corresponding reads).  A JavaScript `Buffer.writeUIntNLE` throws when
the value is out of range; the encoders below are therefore only claimed
faithful for in-range field values, which is exactly the hypothesis of the
round-trip theorems. -/

/-- Two bytes, little endian, of a 16-bit value. -/
def writeUInt16LE (v : Nat) : List Nat :=
  [v % 256, v / 256 % 256]

/-- Four bytes, little endian, of a 32-bit value. -/
def writeUInt32LE (v : Nat) : List Nat :=
  [v % 256, v / 256 % 256, v / 65536 % 256, v / 16777216 % 256]

/-- Four bytes, little endian, of a signed 32-bit value (two's complement). -/
def writeInt32LE (v : Int) : List Nat :=
  writeUInt32LE (v % 4294967296).toNat

/-- Eight bytes, little endian, of a 64-bit value. -/
def writeUInt64LE (v : Nat) : List Nat :=
  [v % 256, v / 256 % 256, v / 65536 % 256, v / 16777216 % 256,
   v / 4294967296 % 256, v / 1099511627776 % 256,
   v / 281474976710656 % 256, v / 72057594037927936 % 256]

/-- Read a 16-bit little-endian value at `off` (missing bytes read as 0). -/
def readUInt16LE (b : List Nat) (off : Nat) : Nat :=
  b.getD off 0 + 256 * b.getD (off + 1) 0

/-- Read a 32-bit little-endian value at `off`. -/
def readUInt32LE (b : List Nat) (off : Nat) : Nat :=
  b.getD off 0 + 256 * b.getD (off + 1) 0 + 65536 * b.getD (off + 2) 0 +
    16777216 * b.getD (off + 3) 0

/-- Read a signed 32-bit little-endian value at `off` (two's complement). -/
def readInt32LE (b : List Nat) (off : Nat) : Int :=
  let u := readUInt32LE b off
  if u < 2147483648 then (u : Int) else (u : Int) - 4294967296

/-- Read a 64-bit little-endian value at `off`. -/
def readUInt64LE (b : List Nat) (off : Nat) : Nat :=
  b.getD off 0 + 256 * b.getD (off + 1) 0 + 65536 * b.getD (off + 2) 0 +
    16777216 * b.getD (off + 3) 0 + 4294967296 * b.getD (off + 4) 0 +
    1099511627776 * b.getD (off + 5) 0 +
    281474976710656 * b.getD (off + 6) 0 +
    72057594037927936 * b.getD (off + 7) 0

/-! ## DTX message codec (`dtx-message.ts`)

Embeds `DTXMessageHeader`, `DTXMessagePayloadHeader`, the `DTX_CONSTANTS`
table, and the four pure codec functions of class `DTXMessage`.  A header
buffer is the concatenation of the little-endian field encodings, written
at the same fixed offsets as the source (offsets 0,4,8,10,12,16,20,24,28
for the 32-byte message header; 0,4,8 for the 16-byte payload header). -/

/-- Header of one DTX (instrumentation-protocol) message fragment. -/
structure DTXMessageHeader where
  magic : Nat
  cb : Nat
  fragmentId : Nat
  fragmentCount : Nat
  length : Nat
  identifier : Nat
  conversationIndex : Nat
  channelCode : Int
  expectsReply : Nat
  deriving Repr, DecidableEq

/-- Payload header that follows the message header of a complete message. -/
structure DTXMessagePayloadHeader where
  flags : Nat
  auxiliaryLength : Nat
  totalLength : Nat
  deriving Repr, DecidableEq

namespace DTX_CONSTANTS

def MESSAGE_HEADER_MAGIC : Nat := 0x1f3d5b79
def MESSAGE_HEADER_SIZE : Nat := 32
def PAYLOAD_HEADER_SIZE : Nat := 16
def MESSAGE_AUX_MAGIC : Nat := 0x1f0
def EMPTY_DICTIONARY : Nat := 0xa
def INSTRUMENTS_MESSAGE_TYPE : Nat := 2
def EXPECTS_REPLY_MASK : Nat := 0x1000
def AUX_TYPE_OBJECT : Nat := 2
def AUX_TYPE_INT32 : Nat := 3
def AUX_TYPE_INT64 : Nat := 6

end DTX_CONSTANTS

namespace DTXMessage

/-- `DTXMessage.parseMessageHeader`: throws when the buffer is shorter than
the 32-byte header size, otherwise reads the nine fields at their fixed
offsets.  Note that the source does not inspect the magic field. -/
def parseMessageHeader (buffer : List Nat) :
    Except String DTXMessageHeader :=
  if buffer.length < DTX_CONSTANTS.MESSAGE_HEADER_SIZE then
    .error "Buffer too small for DTX message header"
  else
    .ok
      { magic := readUInt32LE buffer 0
        cb := readUInt32LE buffer 4
        fragmentId := readUInt16LE buffer 8
        fragmentCount := readUInt16LE buffer 10
        length := readUInt32LE buffer 12
        identifier := readUInt32LE buffer 16
        conversationIndex := readUInt32LE buffer 20
        channelCode := readInt32LE buffer 24
        expectsReply := readUInt32LE buffer 28 }

/-- `DTXMessage.buildMessageHeader`: the 32-byte encoding of a header. -/
def buildMessageHeader (h : DTXMessageHeader) : List Nat :=
  writeUInt32LE h.magic ++ writeUInt32LE h.cb ++
    writeUInt16LE h.fragmentId ++ writeUInt16LE h.fragmentCount ++
    writeUInt32LE h.length ++ writeUInt32LE h.identifier ++
    writeUInt32LE h.conversationIndex ++ writeInt32LE h.channelCode ++
    writeUInt32LE h.expectsReply

/-- `DTXMessage.parsePayloadHeader`: throws when the buffer is shorter than
the 16-byte payload header size. -/
def parsePayloadHeader (buffer : List Nat) :
    Except String DTXMessagePayloadHeader :=
  if buffer.length < DTX_CONSTANTS.PAYLOAD_HEADER_SIZE then
    .error "Buffer too small for DTX payload header"
  else
    .ok
      { flags := readUInt32LE buffer 0
        auxiliaryLength := readUInt32LE buffer 4
        totalLength := readUInt64LE buffer 8 }

/-- `DTXMessage.buildPayloadHeader`: the 16-byte encoding. -/
def buildPayloadHeader (h : DTXMessagePayloadHeader) : List Nat :=
  writeUInt32LE h.flags ++ writeUInt32LE h.auxiliaryLength ++
    writeUInt64LE h.totalLength

end DTXMessage

/-! ## AFC (file-conduit) frame codec (`afc/constants.ts`, `afc/codec.ts`)

`readAfcHeader` in the source first pulls exactly `AFC_HEADER_SIZE` bytes
from the socket with `readExact` and then decodes them; `parseAfcHeader`
below is that pure decoding step applied to the pulled bytes. -/

/-- The 8 ASCII bytes of the magic string CFA6LPAA. -/
def AFCMAGIC : List Nat := [67, 70, 65, 54, 76, 80, 65, 65]

def AFC_HEADER_SIZE : Nat := 40

/-- Override for the this-length field of WRITE packets. -/
def AFC_WRITE_THIS_LENGTH : Nat := 48

/-! Modelled from the spec: `afc/enums.ts` is not part of the snapshot (only
its importers are).  The spec describes opcodes only as numeric operation
selectors, and no claim depends on the concrete numbers, only on the names
being distinct operations; the standard AFC protocol numbers are used. -/

namespace AfcOpcode

def STATUS : Nat := 1
def READ_DIR : Nat := 3
def REMOVE_PATH : Nat := 8
def GET_FILE_INFO : Nat := 10
def FILE_OPEN : Nat := 13
def READ : Nat := 15
def WRITE : Nat := 16
def FILE_CLOSE : Nat := 20
def RENAME_PATH : Nat := 24

end AfcOpcode

/-! Modelled from the spec: `afc/enums.ts` is missing; the error taxonomy
needs only a distinguished success code and a distinguished
object-not-found code.  Standard AFC status numbers are used. -/

namespace AfcError

def SUCCESS : Nat := 0
def OBJECT_NOT_FOUND : Nat := 8

end AfcError

/-- Decoded AFC packet header. -/
structure AfcHeader where
  magic : List Nat
  entireLength : Nat
  thisLength : Nat
  packetNum : Nat
  operation : Nat
  deriving Repr, DecidableEq

/-- `encodeHeader` of `afc/codec.ts`: magic at offset 0, entire-length at 8,
this-length at 16, packet number at 24, operation at 32.  The entire length
is always header size plus payload length; the this-length falls back to
the same value when no override is given. -/
def encodeHeader (op : Nat) (packetNum : Nat) (payloadLen : Nat)
    (thisLenOverride : Option Nat := none) : List Nat :=
  let entireLen := AFC_HEADER_SIZE + payloadLen
  let thisLen := thisLenOverride.getD (AFC_HEADER_SIZE + payloadLen)
  AFCMAGIC ++ writeUInt64LE entireLen ++ writeUInt64LE thisLen ++
    writeUInt64LE packetNum ++ writeUInt64LE op

/-- The pure decoding step of `readAfcHeader`, applied to the
`AFC_HEADER_SIZE` bytes that `readExact` returned: the 8 magic bytes are
compared against `AFCMAGIC` and a framing error is thrown on mismatch,
then the four 64-bit fields are read. -/
def parseAfcHeader (buf : List Nat) : Except String AfcHeader :=
  let magic := buf.take 8
  if magic ≠ AFCMAGIC then
    .error "Invalid AFC magic"
  else
    .ok
      { magic := magic
        entireLength := readUInt64LE buf 8
        thisLength := readUInt64LE buf 16
        packetNum := readUInt64LE buf 24
        operation := readUInt64LE buf 32 }

/-- `AfcService.fwrite` dispatches each WRITE chunk as
`_dispatch(AfcOpcode.WRITE, concat(handle64, chunk), AFC_WRITE_THIS_LENGTH)`,
which reaches `sendAfcPacket` and thence `encodeHeader` with the
write-specific this-length override (`afc/index.ts`, `fwrite`). -/
def fwriteChunkPacketHeader (handle : Nat) (chunk : List Nat)
    (packetNum : Nat) : List Nat :=
  encodeHeader AfcOpcode.WRITE packetNum
    (writeUInt64LE handle ++ chunk).length (some AFC_WRITE_THIS_LENGTH)

/-- `_doOperation`/`_dispatch` pass no override for every other operation
(`afc/index.ts`): the packet header of a non-WRITE operation. -/
def doOperationPacketHeader (op : Nat) (packetNum : Nat)
    (payload : List Nat) : List Nat :=
  encodeHeader op packetNum payload.length none

/-! ## Fragment reassembler (`dvt/channel-fragmenter.ts`)

The mutable class is modelled as a record threaded through the two
methods; `get` returns the popped message together with the new state. -/

/-- State of one `ChannelFragmenter` instance. -/
structure ChannelFragmenter where
  messages : List (List Nat)
  packetData : List Nat
  streamPacketData : List Nat
  deriving Repr, DecidableEq

namespace ChannelFragmenter

/-- A freshly constructed fragmenter: empty queue, empty accumulators. -/
def empty : ChannelFragmenter :=
  { messages := [], packetData := [], streamPacketData := [] }

/-- `ChannelFragmenter.get`: pop the oldest completed message, or `none`.
The source returns `this.messages.shift() || null`. -/
def get (f : ChannelFragmenter) : Option (List Nat) × ChannelFragmenter :=
  match f.messages with
  | [] => (none, f)
  | m :: rest => (some m, { f with messages := rest })

/-- `ChannelFragmenter.addFragment`: non-negative channel codes accumulate
into `packetData`, negative ones into `streamPacketData`; when
`fragmentId === fragmentCount - 1` (JavaScript number arithmetic, hence
the comparison over `Int`) the accumulator is pushed onto the queue and
reset. -/
def addFragment (f : ChannelFragmenter) (header : DTXMessageHeader)
    (chunk : List Nat) : ChannelFragmenter :=
  if header.channelCode ≥ 0 then
    let packetData := f.packetData ++ chunk
    if (header.fragmentId : Int) = (header.fragmentCount : Int) - 1 then
      { f with messages := f.messages ++ [packetData], packetData := [] }
    else
      { f with packetData := packetData }
  else
    let streamPacketData := f.streamPacketData ++ chunk
    if (header.fragmentId : Int) = (header.fragmentCount : Int) - 1 then
      { f with messages := f.messages ++ [streamPacketData],
               streamPacketData := [] }
    else
      { f with streamPacketData := streamPacketData }

/-- Feed a list of fragments in order. -/
def feed (f : ChannelFragmenter) (frs : List (DTXMessageHeader × List Nat)) :
    ChannelFragmenter :=
  frs.foldl (fun acc p => addFragment acc p.1 p.2) f

end ChannelFragmenter

/-- Build the header of the `i`-th fragment of an in-order sequence from a
base header: only `fragmentId`, `fragmentCount` and `channelCode` are read
by `addFragment`, the remaining fields stay as in the base. -/
def mkFragmentHeader (base : DTXMessageHeader) (i n : Nat) (c : Int) :
    DTXMessageHeader :=
  { base with fragmentId := i, fragmentCount := n, channelCode := c }

/-- The in-order fragment sequence `0..n-1` for channel code `c` carrying
the given chunks (`n = chunks.length`), starting at index `start`. -/
def mkFragments (base : DTXMessageHeader) (n : Nat) (c : Int) (start : Nat) :
    List (List Nat) → List (DTXMessageHeader × List Nat)
  | [] => []
  | chunk :: rest =>
    (mkFragmentHeader base start n c, chunk) :: mkFragments base n c (start + 1) rest

/-! ## Selector conversion (`dvt/channel.ts`)

`Channel.call` converts the method name with `convertToSelector` before
handing it to `sendMessage`.  The JavaScript body replaces every
underscore by a colon (`replace(/_/g, ':')` is a global single-character
replacement, i.e. a character map); a leading underscore is split off
first and re-prefixed unchanged. -/

/-- Global replacement of `_` by `:` on a string. -/
def replaceUnderscores (s : String) : String :=
  String.mk (s.data.map fun ch => if ch = '_' then ':' else ch)

/-- `Channel.convertToSelector`: the `name.startsWith('_')` test and the
`name.substring(1)` slice are expressed on the character list. -/
def convertToSelector (name : String) : String :=
  match name.data with
  | '_' :: rest => "_" ++ replaceUnderscores (String.mk rest)
  | _ => replaceUnderscores name

/-! ## NSKeyedArchiver decoder (`nskeyedarchiver-decoder.ts`)

JavaScript values appearing in a parsed archive are modelled by `JSValue`.
The decoder class holds two pieces of mutable state: the per-instance
memo map `decoded` (threaded below as an explicit association list
`Cache`) and the per-invocation `visited` set.  Every branch of
`decodeObject` that adds `index` to `visited` removes it again before
returning, so sibling calls observe the same set as their parent; the set
is therefore passed as a pure parameter extended with `index` for the
recursive calls.

The recursion parameter: the source guards on `depth > MAX_DECODE_DEPTH`
and every recursive call (including those made through `decodeArray`,
`decodeDictionary` and the generic field loop) passes `depth + 1`.
`decodeObjF` carries `fuel = MAX_DECODE_DEPTH + 1 - depth` instead, so the
guard becomes the `fuel = 0` case and each recursive call decrements fuel
by exactly one; `decodeObject` below re-expresses it in terms of `depth`. -/

/-- A JavaScript value as seen by the archive decoder.  `undef` is the
JavaScript `undefined`, produced when the source indexes the object table
with a non-numeric reference. -/
inductive JSValue where
  | null
  | undef
  | bool (b : Bool)
  | num (n : Int)
  | str (s : String)
  | buffer (bytes : List Nat)
  | arr (elems : List JSValue)
  | obj (fields : List (String × JSValue))
  deriving Repr

/-- Look up a property of a JavaScript object (field lists have unique
keys, as JavaScript objects do). -/
def getField (fields : List (String × JSValue)) (key : String) :
    Option JSValue :=
  match fields with
  | [] => none
  | (k, v) :: rest => if k = key then some v else getField rest key

/-- The `in` operator on a JavaScript object. -/
def hasField (fields : List (String × JSValue)) (key : String) : Bool :=
  (getField fields key).isSome

/-- Property assignment `result[key] = v`: overwrite in place or append. -/
def objSet (fields : List (String × JSValue)) (key : String) (v : JSValue) :
    List (String × JSValue) :=
  match fields with
  | [] => [(key, v)]
  | (k, w) :: rest =>
    if k = key then (k, v) :: rest else (k, w) :: objSet rest key v

/-- The decoder's memo map `decoded : Map<number, any>`. -/
def Cache := List (Int × JSValue)

/-- `Map.get` on the memo map. -/
def cacheGet (c : Cache) (k : Int) : Option JSValue :=
  match c with
  | [] => none
  | (k0, v) :: rest => if k0 = k then some v else cacheGet rest k

/-- `Map.set` on the memo map. -/
def cacheSet (c : Cache) (k : Int) (v : JSValue) : Cache :=
  match c with
  | [] => [(k, v)]
  | (k0, w) :: rest =>
    if k0 = k then (k0, v) :: rest else (k0, w) :: cacheSet rest k v

/-- A truthy value of JavaScript type `object`: a plain object, an array
or a Buffer (`null` is of type `object` but falsy). -/
def jsIsTruthyObject : JSValue → Bool
  | .obj _ => true
  | .arr _ => true
  | .buffer _ => true
  | _ => false

def MAX_DECODE_DEPTH : Nat := 1000

/-- `NSKeyedArchiverDecoder.decodeObject`, with `decodeArray`,
`decodeDictionary` and the generic field loop inlined as folds (each of
their recursive calls passes `depth + 1` in the source, i.e. fuel
decremented by one here).  Non-numeric values passed to `decodeObject` as
an index (possible through `CF$UID` fields and through raw dictionary
key/value references) make the source read `objects[nonNumber]`, which
yields `undefined` and is returned as a primitive; this is modelled by
`.undef` directly.  Numeric-string indices, which JavaScript arrays would
alias to a numeric index, are not modelled (archives reference objects by
number or `CF$UID` wrapper). -/
def decodeObjF (objects : List JSValue) :
    Nat → Int → List Int → Cache → JSValue × Cache
  | 0, _, _, cache => (.null, cache)
  | fuel + 1, index, visited, cache =>
    if index < 0 ∨ (objects.length : Int) ≤ index then
      (.null, cache)
    else if index ∈ visited then
      (.null, cache)
    else
      match cacheGet cache index with
      | some v => (v, cache)
      | none =>
        let visited' := index :: visited
        match objects.getD index.toNat .undef with
        | .null => (.null, cache)
        | .str s =>
          if s = "$null" then (.null, cache) else (.str s, cache)
        | .num n => (.num n, cache)
        | .bool b => (.bool b, cache)
        | .undef => (.undef, cache)
        | .buffer bs => (.buffer bs, cacheSet cache index (.buffer bs))
        | .arr es =>
          -- a plain-array table entry reaches the generic
          -- `Object.entries` loop with its indices as string keys
          let step := fun (acc : List (String × JSValue) × Cache)
              (kv : String × JSValue) =>
            let (result, c0) := acc
            if kv.1 = "$class" then (result, c0)
            else
              match kv.2 with
              | .num n =>
                if n < (objects.length : Int) ∧ 0 ≤ n then
                  let referenced := objects.getD n.toNat .undef
                  if jsIsTruthyObject referenced ∧ n ∉ visited' then
                    let (v, c1) := decodeObjF objects fuel n visited' c0
                    (objSet result kv.1 v, c1)
                  else
                    (objSet result kv.1 (.num n), c0)
                else
                  (objSet result kv.1 (.num n), c0)
              | .obj ofs =>
                match getField ofs "CF$UID" with
                | some (.num u) =>
                  if u ∉ visited' then
                    let (v, c1) := decodeObjF objects fuel u visited' c0
                    (objSet result kv.1 v, c1)
                  else
                    (objSet result kv.1 (.obj ofs), c0)
                | _ => (objSet result kv.1 (.obj ofs), c0)
              | v => (objSet result kv.1 v, c0)
          let (result, cache') :=
            (es.enum.map fun p => (toString p.1, p.2)).foldl step ([], cache)
          (.obj result, cacheSet cache' index (.obj result))
        | .obj fields =>
          if hasField fields "CF$UID" then
            match getField fields "CF$UID" with
            | some (.num u) => decodeObjF objects fuel u visited' cache
            | _ => (.undef, cache)
          else if hasField fields "NS.keys" ∧ hasField fields "NS.objects" then
            match getField fields "NS.keys", getField fields "NS.objects" with
            | some (.arr keyRefs), some (.arr valueRefs) =>
              let step := fun (acc : List (String × JSValue) × Cache)
                  (kv : JSValue × JSValue) =>
                let (result, c0) := acc
                let (key, c1) :=
                  match kv.1 with
                  | .num n => decodeObjF objects fuel n visited' c0
                  | _ => (JSValue.undef, c0)
                let (value, c2) :=
                  match kv.2 with
                  | .num n => decodeObjF objects fuel n visited' c1
                  | _ => (JSValue.undef, c1)
                match key with
                | .str s => (objSet result s value, c2)
                | _ => (result, c2)
              let (result, cache') :=
                (keyRefs.zip valueRefs).foldl step ([], cache)
              (.obj result, cacheSet cache' index (.obj result))
            | _, _ => (.obj [], cacheSet cache index (.obj []))
          else if hasField fields "NS.objects" then
            match getField fields "NS.objects" with
            | some (.arr refs) =>
              let step := fun (acc : List JSValue × Cache) (ref : JSValue) =>
                let (elems, c0) := acc
                match ref with
                | .num n =>
                  let (v, c1) := decodeObjF objects fuel n visited' c0
                  (elems ++ [v], c1)
                | .obj ofs =>
                  if hasField ofs "CF$UID" then
                    match getField ofs "CF$UID" with
                    | some (.num u) =>
                      let (v, c1) := decodeObjF objects fuel u visited' c0
                      (elems ++ [v], c1)
                    | _ => (elems ++ [JSValue.undef], c0)
                  else
                    (elems ++ [JSValue.obj ofs], c0)
                | v => (elems ++ [v], c0)
              let (elems, cache') := refs.foldl step ([], cache)
              (.arr elems, cacheSet cache' index (.arr elems))
            | _ => (.arr [], cacheSet cache index (.arr []))
          else
            -- generic branch: resolve numeric or reference-wrapper fields,
            -- dropping the reserved class-descriptor key
            let step := fun (acc : List (String × JSValue) × Cache)
                (kv : String × JSValue) =>
              let (result, c0) := acc
              if kv.1 = "$class" then (result, c0)
              else
                match kv.2 with
                | .num n =>
                  if n < (objects.length : Int) ∧ 0 ≤ n then
                    let referenced := objects.getD n.toNat .undef
                    if jsIsTruthyObject referenced ∧ n ∉ visited' then
                      let (v, c1) := decodeObjF objects fuel n visited' c0
                      (objSet result kv.1 v, c1)
                    else
                      (objSet result kv.1 (.num n), c0)
                  else
                    (objSet result kv.1 (.num n), c0)
                | .obj ofs =>
                  match getField ofs "CF$UID" with
                  | some (.num u) =>
                    if u ∉ visited' then
                      let (v, c1) := decodeObjF objects fuel u visited' c0
                      (objSet result kv.1 v, c1)
                    else
                      (objSet result kv.1 (.obj ofs), c0)
                  | _ => (objSet result kv.1 (.obj ofs), c0)
                | v => (objSet result kv.1 v, c0)
            let (result, cache') := fields.foldl step ([], cache)
            (.obj result, cacheSet cache' index (.obj result))

/-- Wrapper re-expressing `decodeObjF` in the source's `depth` parameter:
the guard `depth > MAX_DECODE_DEPTH → null` is the fuel-0 case. -/
def decodeObject (objects : List JSValue) (index : Int) (visited : List Int)
    (depth : Nat) (cache : Cache) : JSValue × Cache :=
  decodeObjF objects (MAX_DECODE_DEPTH + 1 - depth) index visited cache

/-- A parsed archive container as the decoder sees it: the `$objects`
table (`data.$objects || []`) and the `$top` entry when present. -/
structure NSKeyedArchive where
  objects : List JSValue
  top : Option JSValue

/-- `NSKeyedArchiverDecoder.decode`: empty table decodes to null; the root
reference is taken from `$top.root` either directly (a number) or through
a `CF$UID` wrapper; a missing root reference falls back to table index 1
(with a logged warning).  `decodeObject` starts with an empty visited set
and depth 0. -/
def decode (a : NSKeyedArchive) : JSValue :=
  if a.objects.length = 0 then .null
  else
    let rootRef : Option JSValue :=
      match a.top with
      | some (.obj fs) =>
        match getField fs "root" with
        | some (.num n) => some (.num n)
        | some (.obj gs) =>
          match getField gs "CF$UID" with
          | some u => some u
          | none => none
        | _ => none
      | _ => none
    match rootRef with
    | some (.num n) => (decodeObject a.objects n [] 0 []).1
    | some _ => .undef
    | none => (decodeObject a.objects 1 [] 0 []).1

/-! ## Receiving a DTX message (`dvt/index.ts`, `recvMessage` and the
auxiliary-data parsers)

`recvMessage` pulls a complete reassembled packet from the channel's
fragmenter and then processes it purely; that processing step is embedded
here on the packet bytes.  The external binary-plist codec (out of scope
per the spec, assumed available) is passed in as `pb`.  `Buffer.readUInt32LE`
and `readBigUInt64LE` throw a range error when fewer than 4 (resp. 8)
bytes remain, hence the checked reads. -/

/-- Checked 32-bit read: `Buffer.readUInt32LE` throws when out of range. -/
def readUInt32LE_chk (b : List Nat) (off : Nat) : Except String Nat :=
  if off + 4 ≤ b.length then .ok (readUInt32LE b off)
  else .error "Attempt to access memory outside buffer bounds"

/-- Checked 64-bit read. -/
def readUInt64LE_chk (b : List Nat) (off : Nat) : Except String Nat :=
  if off + 8 ≤ b.length then .ok (readUInt64LE b off)
  else .error "Attempt to access memory outside buffer bounds"

/-- A pluggable external binary-plist parser (`parseBinaryPlist`), which
the spec places out of scope as an external collaborator. -/
def PlistParser := List Nat → Except String JSValue

/-- `parseAuxiliaryValue`: one tagged auxiliary item at `offset`; returns
the value and the new offset.  An unknown type tag throws (this is the
error its caller catches).  For object items a plist parse failure is
caught in place and the raw bytes returned instead. -/
def parseAuxiliaryValue (pb : PlistParser) (buffer : List Nat) (type : Nat)
    (offset : Nat) : Except String (JSValue × Nat) :=
  if type = DTX_CONSTANTS.AUX_TYPE_INT32 then
    match readUInt32LE_chk buffer offset with
    | .error e => .error e
    | .ok v => .ok (.num v, offset + 4)
  else if type = DTX_CONSTANTS.AUX_TYPE_INT64 then
    match readUInt64LE_chk buffer offset with
    | .error e => .error e
    | .ok v => .ok (.num v, offset + 8)
  else if type = DTX_CONSTANTS.AUX_TYPE_OBJECT then
    match readUInt32LE_chk buffer offset with
    | .error e => .error e
    | .ok length =>
      let plistData := (buffer.drop (offset + 4)).take length
      let parsed :=
        match pb plistData with
        | .ok v => v
        | .error _ => .buffer plistData
      .ok (parsed, offset + 4 + length)
  else
    .error "Unknown auxiliary type"

/-- The while-loop of `parseAuxiliaryStandard`.  In the source the loop
advances `offset` by at least 8 bytes per iteration, so it runs at most
`buffer.length` times; the structural `fuel` argument (instantiated with
`buffer.length + 1` by the caller) makes that termination explicit and is
never exhausted.  The marker and type reads happen outside the `try`
(errors propagate); the item parse happens inside it (an error logs a
warning and breaks, delivering the values collected so far). -/
def parseAuxLoop (pb : PlistParser) (buffer : List Nat) (endOffset : Nat) :
    Nat → Nat → List JSValue → Except String (List JSValue)
  | 0, _, values => .ok values
  | fuel + 1, offset, values =>
    if offset < endOffset ∧ offset < buffer.length then
      match readUInt32LE_chk buffer offset with
      | .error e => .error e
      | .ok marker =>
        let offset1 :=
          if marker ≠ DTX_CONSTANTS.EMPTY_DICTIONARY then offset
          else offset + 4
        match readUInt32LE_chk buffer offset1 with
        | .error e => .error e
        | .ok type =>
          match parseAuxiliaryValue pb buffer type (offset1 + 4) with
          | .ok (v, newOffset) =>
            parseAuxLoop pb buffer endOffset fuel newOffset (values ++ [v])
          | .error _ => .ok values
    else
      .ok values

/-- `parseAuxiliaryStandard`: header is magic (8) + total item size (8),
items start at offset 16 and end at `16 + totalSize`. -/
def parseAuxiliaryStandard (pb : PlistParser) (buffer : List Nat) :
    Except String (List JSValue) :=
  let totalSize := readUInt64LE buffer 8
  parseAuxLoop pb buffer (16 + totalSize) (buffer.length + 1) 16 []

/-- The ASCII bytes of the string bplist00. -/
def bplistMagic : List Nat := [98, 112, 108, 105, 115, 116, 48, 48]

/-- `parseAuxiliaryAsBplist`: scan the first `min 100 (length - 8)`
positions for the bplist magic; on a hit parse from there (an array stays
a list, anything else is wrapped in a singleton); parse failures and a
missing magic both yield the empty list (never a throw). -/
def parseAuxiliaryAsBplist (pb : PlistParser) (buffer : List Nat) :
    List JSValue :=
  match (List.range (min 100 (buffer.length - 8))).find?
      (fun i => (buffer.drop i).take 8 = bplistMagic) with
  | some i =>
    match pb (buffer.drop i) with
    | .ok (.arr es) => es
    | .ok v => [v]
    | .error _ => []
  | none => []

/-- `parseAuxiliaryData`: buffers shorter than 16 bytes yield no values; a
wrong magic diverts to the embedded-bplist format used by handshake
responses; otherwise the standard tagged format is parsed. -/
def parseAuxiliaryData (pb : PlistParser) (buffer : List Nat) :
    Except String (List JSValue) :=
  if buffer.length < 16 then .ok []
  else if readUInt64LE buffer 0 ≠ DTX_CONSTANTS.MESSAGE_AUX_MAGIC then
    .ok (parseAuxiliaryAsBplist pb buffer)
  else
    parseAuxiliaryStandard pb buffer

/-- The pure processing step of `recvMessage` on one complete reassembled
packet: parse the payload header, reject compressed payloads, split off
and parse the auxiliary section, and carve out the object data. -/
def recvMessageModel (pb : PlistParser) (packetData : List Nat) :
    Except String (Option (List Nat) × List JSValue) :=
  match DTXMessage.parsePayloadHeader packetData with
  | .error e => .error e
  | .ok payloadHeader =>
    let compression := (payloadHeader.flags &&& 0xff000) >>> 12
    if compression ≠ 0 then
      .error "Compressed messages not supported"
    else
      let offset := DTX_CONSTANTS.PAYLOAD_HEADER_SIZE
      let auxResult : Except String (List JSValue) :=
        if payloadHeader.auxiliaryLength > 0 then
          parseAuxiliaryData pb
            ((packetData.drop offset).take payloadHeader.auxiliaryLength)
        else
          .ok []
      match auxResult with
      | .error e => .error e
      | .ok aux =>
        let offset' :=
          if payloadHeader.auxiliaryLength > 0 then
            offset + payloadHeader.auxiliaryLength
          else offset
        let objSize : Int :=
          (payloadHeader.totalLength : Int) - payloadHeader.auxiliaryLength
        let data :=
          if objSize > 0 then
            some ((packetData.drop offset').take objSize.toNat)
          else none
        .ok (data, aux)

/-! ## Channel creation (`dvt/index.ts`, `makeChannel`; `dvt/utils.ts`)

The connection-scoped mutable fields of `DVTSecureSocketProxyService` that
`makeChannel` touches are modelled as a state record.  `sendMessage`
serializes and writes a message to the socket; for the state machine its
observable effect is the message-id increment and the message itself,
recorded in a ghost `sent` log.  The decoded reply that `recvPlist`
returns from the broadcast channel is supplied by the environment as the
`reply` argument. -/

/-- A DTX channel object (`dvt/channel.ts`): it stores its channel code
and a back-reference to the service, which carries no further state of
its own and is dropped here. -/
structure Channel where
  channelCode : Int
  deriving Repr, DecidableEq

/-- One value appended to a `MessageAux` argument list
(`appendInt` / `appendLong` / `appendObj`). -/
inductive MessageAuxValue where
  | int32 (v : Int)
  | int64 (v : Int)
  | obj (v : JSValue)

/-- Ghost record of one `sendMessage` call. -/
structure SentMessage where
  channel : Int
  selector : Option String
  args : Option (List MessageAuxValue)
  expectsReply : Bool

/-- The `makeChannel`-relevant mutable state of the service. -/
structure DVTState where
  isHandshakeComplete : Bool
  lastChannelCode : Nat
  curMessageId : Nat
  channelCache : List (String × Channel)
  channelMessages : List Int
  sent : List SentMessage

/-- `Map.get` on the channel cache. -/
def chanGet (c : List (String × Channel)) (k : String) : Option Channel :=
  match c with
  | [] => none
  | (k0, v) :: rest => if k0 = k then some v else chanGet rest k

/-- `Map.set` on the channel cache. -/
def chanSet (c : List (String × Channel)) (k : String) (v : Channel) :
    List (String × Channel) :=
  match c with
  | [] => [(k, v)]
  | (k0, w) :: rest =>
    if k0 = k then (k0, v) :: rest else (k0, w) :: chanSet rest k v

/-- `sendMessage`: increments the message identifier and writes one
message; the written message is recorded in the ghost log. -/
def sendMessageSt (s : DVTState) (channel : Int) (selector : Option String)
    (args : Option (List MessageAuxValue)) (expectsReply : Bool) : DVTState :=
  { s with
    curMessageId := s.curMessageId + 1
    sent := s.sent ++
      [{ channel := channel, selector := selector, args := args,
         expectsReply := expectsReply }] }

/-- `utils.isPlainObject`: non-null, of type `object`, and not an array
(a Buffer satisfies all three in JavaScript). -/
def isPlainObject : JSValue → Bool
  | .obj _ => true
  | .buffer _ => true
  | _ => false

/-- The `in` operator on an arbitrary value as `hasProperties` uses it
(the probed names are never numeric indices or built-ins, so only plain
objects can carry them). -/
def jsHasProp (v : JSValue) (key : String) : Bool :=
  match v with
  | .obj fs => hasField fs key
  | _ => false

/-- `utils.hasProperties`. -/
def hasProperties (v : JSValue) (props : List String) : Bool :=
  isPlainObject v && props.all (jsHasProp v)

/-- `utils.isNSKeyedArchiverFormat`: has a `$objects` property that is a
non-empty array. -/
def isNSKeyedArchiverFormat (data : JSValue) : Bool :=
  hasProperties data ["$objects"] &&
    (match data with
     | .obj fs =>
       match getField fs "$objects" with
       | some (.arr es) => decide (0 < es.length)
       | _ => false
     | _ => false)

/-- `utils.extractNSKeyedArchiverObjects`: the `$objects` array when the
shape matches and the table has more than one entry. -/
def extractNSKeyedArchiverObjects (data : JSValue) : Option (List JSValue) :=
  if isNSKeyedArchiverFormat data then
    match data with
    | .obj fs =>
      match getField fs "$objects" with
      | some (.arr es) => if 1 < es.length then some es else none
      | _ => none
    | _ => none
  else none

/-- `utils.hasNSErrorIndicators`: a plain object carrying one of the
reserved NSError property names. -/
def hasNSErrorIndicators (v : JSValue) : Bool :=
  isPlainObject v &&
    (["NSCode", "NSUserInfo", "NSDomain"].any (jsHasProp v))

def MIN_ERROR_DESCRIPTION_LENGTH : Nat := 20

/-- Truthiness combined with `typeof === 'object'` as `checkForNSError`
guards on it (`!response || typeof response !== 'object'` returns early). -/
def isTruthyObjectTyped : JSValue → Bool
  | .obj _ => true
  | .arr _ => true
  | .buffer _ => true
  | _ => false

/-- `checkForNSError`: scan an NSKeyedArchiver-shaped response's object
table for NSError indicators (reporting the first long string as the
message), then check the response itself for direct indicators. -/
def checkForNSError (response : JSValue) (context : String) :
    Except String Unit :=
  if ¬isTruthyObjectTyped response then .ok ()
  else
    let archiveError : Option String :=
      match extractNSKeyedArchiverObjects response with
      | some objects =>
        if objects.any hasNSErrorIndicators then
          some (match objects.find? (fun o =>
              match o with
              | .str s => decide (MIN_ERROR_DESCRIPTION_LENGTH < s.length)
              | _ => false) with
            | some (.str s) => s
            | _ => "Unknown error")
        else none
      | none => none
    match archiveError with
    | some msg => .error (context ++ ": " ++ msg)
    | none =>
      if hasNSErrorIndicators response then
        .error (context ++ ": (direct NSError)")
      else .ok ()

/-- `makeChannel`: requires a completed handshake; a cache hit returns the
cached channel with no state change (in particular no send); a miss
allocates the next sequential channel code, sends the channel request on
the broadcast channel, checks the decoded reply for an error indicator
and caches the new channel and its fragmenter key. -/
def makeChannel (s : DVTState) (identifier : String) (reply : JSValue) :
    Except String (Channel × DVTState) :=
  if ¬s.isHandshakeComplete then
    .error "Handshake not complete. Call connect() first."
  else
    match chanGet s.channelCache identifier with
    | some ch => .ok (ch, s)
    | none =>
      let channelCode := s.lastChannelCode + 1
      let s1 := { s with lastChannelCode := channelCode }
      let args := [MessageAuxValue.int32 channelCode,
                   MessageAuxValue.obj (.str identifier)]
      let s2 := sendMessageSt s1 0
        (some "_requestChannelWithCode:identifier:") (some args) true
      match checkForNSError reply "Failed to create channel" with
      | .error e => .error e
      | .ok _ =>
        let ch : Channel := { channelCode := (channelCode : Int) }
        .ok (ch,
          { s2 with
            channelCache := chanSet s2.channelCache identifier ch
            channelMessages := s2.channelMessages ++ [(channelCode : Int)] })

/-! ## AFC service operations (`afc/index.ts`, `afc/codec.ts`)

`stat` and `exists` are embedded over the transport outcome of the single
`GET_FILE_INFO` exchange they perform: `.error` is any failure during
dispatch or receive (connection loss, timeout, framing error), `.ok`
carries the `(status, data)` pair `_receive` produced. -/

/-- Decode a sequence of null-delimited strings (`parseCStringArray`):
split at zero bytes, then pop trailing empty entries.  Bytes are mapped
to characters directly (the payloads carry ASCII key/value text). -/
def bytesToString (bs : List Nat) : String :=
  String.mk (bs.map fun b => Char.ofNat b)

def parseCStringArray (buf : List Nat) : List String :=
  let parts := (buf.splitOn 0).map bytesToString
  (parts.reverse.dropWhile (· = "")).reverse

/-- Pair up consecutive entries. -/
def pairUp : List String → List (String × String)
  | k :: v :: rest => (k, v) :: pairUp rest
  | _ => []

/-- Lookup in the decoded key/value record. -/
def kvGet (kv : List (String × String)) (k : String) : Option String :=
  match kv with
  | [] => none
  | (k0, v) :: rest => if k0 = k then some v else kvGet rest k

/-- `parseKeyValueNullList`: throws on an odd number of entries, else the
`Object.fromEntries` record (later duplicates would win; `kvGet` on the
paired list in order models the resulting lookups for the unique-key
responses the device sends). -/
def parseKeyValueNullList (buf : List Nat) :
    Except String (List (String × String)) :=
  let arr := parseCStringArray buf
  if arr.length % 2 ≠ 0 then
    .error "Invalid key/value AFC list (odd number of entries)"
  else
    .ok (pairUp arr)

/-- JavaScript whitespace for trimming (the common set). -/
def isJsSpace (c : Char) : Bool :=
  c = ' ' ∨ c = '\t' ∨ c = '\n' ∨ c = '\r'

/-- String trim on the character list. -/
def jsTrim (s : String) : String :=
  String.mk (((s.data.dropWhile isJsSpace).reverse.dropWhile isJsSpace).reverse)

/-- Value of a decimal digit. -/
def digitVal (c : Char) : Option Nat :=
  if '0' ≤ c ∧ c ≤ '9' then some (c.toNat - 48) else none

/-- Accumulating digit-run parser. -/
def parseDigitsGo : List Char → Nat → Option Nat
  | [], acc => some acc
  | c :: rest, acc =>
    match digitVal c with
    | some d => parseDigitsGo rest (acc * 10 + d)
    | none => none

/-- Parse a non-empty all-digit character list. -/
def parseDigits : List Char → Option Nat
  | [] => none
  | cs => parseDigitsGo cs 0

/-- An optionally signed decimal integer. -/
def parseDecInt (cs : List Char) : Option Int :=
  match cs with
  | '-' :: rest => (parseDigits rest).map (fun n => -(n : Int))
  | '+' :: rest => (parseDigits rest).map (fun n => (n : Int))
  | _ => (parseDigits cs).map (fun n => (n : Int))

/-- JavaScript `BigInt(string)` on the decimal strings the device sends:
empty/whitespace is 0, otherwise an optionally signed decimal number;
anything else throws a SyntaxError (hex and other radix literals are not
modelled).  `BigInt(undefined)` (a missing key) also throws. -/
def jsBigInt : Option String → Except String Int
  | none => .error "Cannot convert undefined to a BigInt"
  | some s =>
    let t := jsTrim s
    if t.data = [] then .ok 0
    else
      match parseDecInt t.data with
      | some n => .ok n
      | none => .error "Cannot convert string to a BigInt"

/-- `Number.parseInt`: never throws; it skips leading whitespace, takes
an optional sign and the longest leading digit run, and yields NaN
(modelled as `none`) when no digit is found. -/
def jsParseInt (s : Option String) : Option Int :=
  match s with
  | none => none
  | some str =>
    match str.data.dropWhile isJsSpace with
    | '-' :: rest =>
      (parseDigits (rest.takeWhile (fun c => (digitVal c).isSome))).map
        (fun n => -(n : Int))
    | '+' :: rest =>
      (parseDigits (rest.takeWhile (fun c => (digitVal c).isSome))).map
        (fun n => (n : Int))
    | cs =>
      (parseDigits (cs.takeWhile (fun c => (digitVal c).isSome))).map
        (fun n => (n : Int))

/-- `nanosecondsToMilliseconds`: `BigInt(ns) / 1000000n` (BigInt division
truncates toward zero), then `Number`. -/
def nanosecondsToMilliseconds (ns : Option String) : Except String Int :=
  match jsBigInt ns with
  | .error e => .error e
  | .ok n => .ok (n.tdiv 1000000)

/-- Decoded `StatInfo`: the typed fields `stat` constructs (`st_mtime` and
`st_birthtime` as the millisecond values handed to `new Date`), plus the
passthrough of the remaining raw keys. -/
structure StatInfo where
  st_size : Int
  st_blocks : Option Int
  st_mtime : Int
  st_birthtime : Int
  st_nlink : Option Int
  extra : List (String × String)
  deriving Repr, DecidableEq

/-- The transport outcome of one dispatched operation: any exception
while connecting, writing or reading is `.error`; otherwise the
`(status, data)` pair returned by `_receive`. -/
def TransportOutcome := Except String (Nat × List Nat)

/-- `_doOperation` after the dispatch/receive: non-success status throws
(with a distinguished message for `OBJECT_NOT_FOUND`), success yields the
data buffer. -/
def doOperationResult (resp : TransportOutcome) : Except String (List Nat) :=
  match resp with
  | .error e => .error e
  | .ok (status, data) =>
    if status ≠ AfcError.SUCCESS then
      if status = AfcError.OBJECT_NOT_FOUND then
        .error "AFC error: OBJECT_NOT_FOUND for operation GET_FILE_INFO"
      else
        .error "AFC operation GET_FILE_INFO failed"
    else
      .ok data

def statTypedKeys : List String :=
  ["st_size", "st_blocks", "st_mtime", "st_birthtime", "st_nlink"]

/-- `AfcService.stat` on the transport outcome of its `GET_FILE_INFO`
exchange: decode the null-delimited key/value list and build the typed
record; `BigInt` conversions of missing or malformed values throw (and
`stat` re-raises after logging). -/
def statModel (resp : TransportOutcome) : Except String StatInfo :=
  match doOperationResult resp with
  | .error e => .error e
  | .ok data =>
    match parseKeyValueNullList data with
    | .error e => .error e
    | .ok kv =>
      match jsBigInt (kvGet kv "st_size") with
      | .error e => .error e
      | .ok size =>
        match nanosecondsToMilliseconds (kvGet kv "st_mtime") with
        | .error e => .error e
        | .ok mtime =>
          match nanosecondsToMilliseconds (kvGet kv "st_birthtime") with
          | .error e => .error e
          | .ok birthtime =>
            .ok
              { st_size := size
                st_blocks := jsParseInt (kvGet kv "st_blocks")
                st_mtime := mtime
                st_birthtime := birthtime
                st_nlink := jsParseInt (kvGet kv "st_nlink")
                extra := kv.filter (fun p => p.1 ∉ statTypedKeys) }

/-- `AfcService.exists`: `stat` wrapped in try/catch — `true` on success,
`false` on any thrown error. -/
def existsModel (resp : TransportOutcome) : Bool :=
  match statModel resp with
  | .ok _ => true
  | .error _ => false

/-! ## Recursive delete (`afc/index.ts`, `rm` / `rmSingle`)

The remote tree is modelled as a finite list of `(absolute path, isDir)`
entries.  The device-side contract assumed by the claim (all removals
succeed) is: `REMOVE_PATH` succeeds exactly on existing paths and removes
the entry; `GET_FILE_INFO` succeeds exactly on existing paths.  `rm`'s
service calls are embedded over that model; removals are also recorded in
a ghost log to expose their order.  JavaScript recursion over the finite
tree terminates; the structural `fuel` makes this explicit and the
theorems instantiate it above the tree depth, where it is never
exhausted. -/

/-- The modelled remote filesystem. -/
def AfcFS := List (String × Bool)

/-- Directory-flag lookup. -/
def fsLookup (fs : AfcFS) (p : String) : Option Bool :=
  match fs with
  | [] => none
  | (q, d) :: rest => if q = p then some d else fsLookup rest p

/-- `AfcService.exists` over the filesystem model: `stat` succeeds
exactly on present paths. -/
def fsExists (fs : AfcFS) (p : String) : Bool :=
  (fsLookup fs p).isSome

/-- `AfcService.isdir` over the model (`stat` then compare `st_ifmt`). -/
def fsIsdir (fs : AfcFS) (p : String) : Bool :=
  fsLookup fs p = some true

/-- `path.posix.join` for the simple absolute paths of the claims. -/
def joinPath (p e : String) : String :=
  if p.data.getLast? = some '/' then p ++ e else p ++ "/" ++ e

/-- Character-list prefix test. -/
def charsPrefix : List Char → List Char → Bool
  | [], _ => true
  | _ :: _, [] => false
  | x :: xs, y :: ys => x = y && charsPrefix xs ys

/-- `AfcService.listdir` over the model: immediate child names (the
source filters out empty, dot and dot-dot entries; the model contains
none). -/
def fsListdir (fs : AfcFS) (p : String) : List String :=
  fs.filterMap fun q =>
    let pre := (p ++ "/").data
    if charsPrefix pre q.1.data then
      let rest := q.1.data.drop pre.length
      if rest ≠ [] ∧ ¬rest.contains '/' then some (String.mk rest) else none
    else none

/-- Remove one path from the model. -/
def fsRemove (fs : AfcFS) (p : String) : AfcFS :=
  fs.filter fun q => q.1 ≠ p

/-- `AfcService.rmSingle`: dispatch `REMOVE_PATH`; success returns true
(and the path is appended to the ghost removal log); a failure returns
false under `force` and re-raises otherwise. -/
def rmSingleModel (fs : AfcFS) (log : List String) (p : String)
    (force : Bool) : Except String (Bool × AfcFS × List String) :=
  if fsExists fs p then
    .ok (true, fsRemove fs p, log ++ [p])
  else if force then
    .ok (false, fs, log)
  else
    .error "AFC error: OBJECT_NOT_FOUND for operation REMOVE_PATH"

/-- `AfcService.rm`: absent paths short-circuit (empty failure list under
`force`, otherwise the path itself is the failure); non-directories go
through `rmSingle`; directories recurse depth-first over their children
(child deletions forced) and finally remove the directory itself, where a
throw is converted to an appended failure path exactly when child
failures were already collected. -/
def rmModel : Nat → AfcFS → List String → String → Bool →
    Except String (List String × AfcFS × List String)
  | 0, _, _, _, _ => .error "recursion limit"
  | fuel + 1, fs, log, filePath, force =>
    if ¬fsExists fs filePath then
      .ok (if force then [] else [filePath], fs, log)
    else if ¬fsIsdir fs filePath then
      match rmSingleModel fs log filePath force with
      | .error e => .error e
      | .ok (true, fs', log') => .ok ([], fs', log')
      | .ok (false, fs', log') => .ok ([filePath], fs', log')
    else
      let children := fsListdir fs filePath
      let step := fun (acc : Except String (List String × AfcFS × List String))
          (entry : String) =>
        match acc with
        | .error e => .error e
        | .ok (failed, fs0, log0) =>
          let cur := joinPath filePath entry
          if fsIsdir fs0 cur then
            match rmModel fuel fs0 log0 cur true with
            | .error e => .error e
            | .ok (sub, fs1, log1) => .ok (failed ++ sub, fs1, log1)
          else
            match rmSingleModel fs0 log0 cur true with
            | .error e => .error e
            | .ok (true, fs1, log1) => .ok (failed, fs1, log1)
            | .ok (false, fs1, log1) => .ok (failed ++ [cur], fs1, log1)
      match children.foldl step (.ok ([], fs, log)) with
      | .error e => .error e
      | .ok (failed, fs2, log2) =>
        match rmSingleModel fs2 log2 filePath force with
        | .ok (true, fs3, log3) => .ok (failed, fs3, log3)
        | .ok (false, fs3, log3) => .ok (failed ++ [filePath], fs3, log3)
        | .error e =>
          if failed ≠ [] then .ok (failed ++ [filePath], fs2, log2)
          else .error e

/-! ## Concrete fixtures used by the theorems -/

/-- A cyclic object table: entry 1 references entry 2 and entry 2
references entry 1 (via `CF$UID` wrappers), with entry 1 as the root. -/
def cyclicArchive : NSKeyedArchive :=
  { objects := [.str "$null", .obj [("CF$UID", .num 2)],
                .obj [("CF$UID", .num 1)]]
    top := some (.obj [("root", .obj [("CF$UID", .num 1)])]) }

/-- A plist parser that accepts nothing, for fixtures whose behaviour
must not depend on the external codec. -/
def noPlistParser : PlistParser := fun _ => .error "no parser"

/-- A reassembled packet whose auxiliary section contains one valid
32-bit item (value 7) followed by an item of unknown type 5: payload
header (flags 0, auxiliary length 36, total length 36), then the
auxiliary block (magic 0x1f0, item size 20, item `[marker 0xa, type 3,
7]`, item `[marker 0xa, type 5]`). -/
def unknownAuxTypePacket : List Nat :=
  [0, 0, 0, 0, 36, 0, 0, 0, 36, 0, 0, 0, 0, 0, 0, 0] ++
    [240, 1, 0, 0, 0, 0, 0, 0] ++ [20, 0, 0, 0, 0, 0, 0, 0] ++
    [10, 0, 0, 0, 3, 0, 0, 0, 7, 0, 0, 0] ++
    [10, 0, 0, 0, 5, 0, 0, 0]

/-- A packet whose payload-header flags carry a non-zero compression
bitfield (bits 12..19). -/
def compressedPacket : List Nat :=
  [0, 16, 0, 0, 0, 0, 0, 0, 0, 0, 0, 0, 0, 0, 0, 0]

/-- The directory tree of the `rm` scenario: a directory holding one
file and one empty subdirectory. -/
def demoTree : AfcFS :=
  [("/d", true), ("/d/f", false), ("/d/s", true)]

/-- A representative in-range message header. -/
def sampleMessageHeader : DTXMessageHeader :=
  { magic := DTX_CONSTANTS.MESSAGE_HEADER_MAGIC, cb := 32, fragmentId := 0,
    fragmentCount := 1, length := 100, identifier := 5,
    conversationIndex := 0, channelCode := -3, expectsReply := 1 }

/-- A representative in-range payload header. -/
def samplePayloadHeader : DTXMessagePayloadHeader :=
  { flags := 4098, auxiliaryLength := 16, totalLength := 56 }

/-- The header fields `parseMessageHeader` reads from a buffer. -/
def messageHeaderOf (b : List Nat) : DTXMessageHeader :=
  { magic := readUInt32LE b 0, cb := readUInt32LE b 4
    fragmentId := readUInt16LE b 8, fragmentCount := readUInt16LE b 10
    length := readUInt32LE b 12, identifier := readUInt32LE b 16
    conversationIndex := readUInt32LE b 20, channelCode := readInt32LE b 24
    expectsReply := readUInt32LE b 28 }

/-- A freshly connected service state (handshake done, broadcast
fragmenter registered, nothing sent yet). -/
def demoDVTState : DVTState :=
  { isHandshakeComplete := true, lastChannelCode := 0, curMessageId := 0,
    channelCache := [], channelMessages := [0], sent := [] }

/-- The state after one successful `makeChannel` on `demoDVTState`. -/
def demoDVTStateAfter : DVTState :=
  { isHandshakeComplete := true, lastChannelCode := 1, curMessageId := 1,
    channelCache := [("demo.service", { channelCode := 1 })],
    channelMessages := [0, 1],
    sent := [{ channel := 0,
               selector := some "_requestChannelWithCode:identifier:",
               args := some [MessageAuxValue.int32 1,
                             MessageAuxValue.obj (.str "demo.service")],
               expectsReply := true }] }

/-- The header fields `readAfcHeader` reads from the pulled bytes. -/
def afcHeaderOf (b : List Nat) : AfcHeader :=
  { magic := b.take 8, entireLength := readUInt64LE b 8
    thisLength := readUInt64LE b 16, packetNum := readUInt64LE b 24
    operation := readUInt64LE b 32 }

/-! # Theorems -/

/-- C3: for every instrumentation message header whose fields fit their
wire widths (16-bit fragment fields, signed 32-bit channel code, 32-bit
remaining fields) and every payload header (32-bit flags and auxiliary
length, 64-bit total length), decoding an encoded header returns the
original header, for both header types. -/
theorem dtx_header_roundtrip :
    (∀ h : DTXMessageHeader, h.magic < 4294967296 → h.cb < 4294967296 →
      h.fragmentId < 65536 → h.fragmentCount < 65536 →
      h.length < 4294967296 → h.identifier < 4294967296 →
      h.conversationIndex < 4294967296 → -2147483648 ≤ h.channelCode →
      h.channelCode < 2147483648 → h.expectsReply < 4294967296 →
      DTXMessage.parseMessageHeader (DTXMessage.buildMessageHeader h) = .ok h) ∧
    (∀ p : DTXMessagePayloadHeader, p.flags < 4294967296 →
      p.auxiliaryLength < 4294967296 →
      p.totalLength < 18446744073709551616 →
      DTXMessage.parsePayloadHeader (DTXMessage.buildPayloadHeader p) = .ok p) := by
  constructor
  · intro h hm hcb hfi hfc hl hi hc hch1 hch2 he
    obtain ⟨m, cb, fi, fc, l, i, ci, ch, er⟩ := h
    simp only at hm hcb hfi hfc hl hi hc hch1 hch2 he
    simp [DTXMessage.buildMessageHeader, DTXMessage.parseMessageHeader,
      writeUInt32LE, writeUInt16LE, writeInt32LE,
      DTX_CONSTANTS.MESSAGE_HEADER_SIZE, readUInt32LE, readUInt16LE,
      readInt32LE, DTXMessageHeader.mk.injEq]
    refine ⟨by omega, by omega, by omega, by omega, by omega, by omega,
      by omega, ?_, by omega⟩
    split <;> omega
  · intro p hf ha ht
    obtain ⟨f, a, t⟩ := p
    simp only at hf ha ht
    simp [DTXMessage.buildPayloadHeader, DTXMessage.parsePayloadHeader,
      writeUInt32LE, writeUInt64LE, DTX_CONSTANTS.PAYLOAD_HEADER_SIZE,
      readUInt32LE, readUInt64LE, DTXMessagePayloadHeader.mk.injEq]
    refine ⟨by omega, by omega, by omega⟩

/-- Witness for `dtx_header_roundtrip` at representative headers. -/
theorem dtx_header_roundtrip_witness :
    DTXMessage.parseMessageHeader
        (DTXMessage.buildMessageHeader sampleMessageHeader) =
      .ok sampleMessageHeader ∧
    DTXMessage.parsePayloadHeader
        (DTXMessage.buildPayloadHeader samplePayloadHeader) =
      .ok samplePayloadHeader :=
  ⟨dtx_header_roundtrip.1 _ (by decide) (by decide) (by decide) (by decide)
      (by decide) (by decide) (by decide) (by decide) (by decide) (by decide),
    dtx_header_roundtrip.2 _ (by decide) (by decide) (by decide)⟩

/-- C5, counterexample: a 32-byte all-zero buffer has no magic, yet
`parseMessageHeader` decodes it without throwing — the source checks only
the buffer length, never the magic field. -/
theorem parseMessageHeader_accepts_wrong_magic :
    DTXMessage.parseMessageHeader (List.replicate 32 0) =
      .ok (messageHeaderOf (List.replicate 32 0)) ∧
    (messageHeaderOf (List.replicate 32 0)).magic ≠
      DTX_CONSTANTS.MESSAGE_HEADER_MAGIC :=
  ⟨rfl, by decide⟩

/-- C5, amended: `parseMessageHeader` throws exactly when the buffer is
shorter than the 32-byte header size and otherwise decodes whatever magic
is present; `readAfcHeader` validates the 8 magic bytes of the 40 bytes it
pulled and throws a framing error when they are absent, decoding the
fields otherwise. -/
theorem framing_checks_amended :
    (∀ b : List Nat, b.length < 32 →
      DTXMessage.parseMessageHeader b =
        .error "Buffer too small for DTX message header") ∧
    (∀ b : List Nat, 32 ≤ b.length →
      DTXMessage.parseMessageHeader b = .ok (messageHeaderOf b)) ∧
    (∀ b : List Nat, b.take 8 ≠ AFCMAGIC →
      parseAfcHeader b = .error "Invalid AFC magic") ∧
    (∀ b : List Nat, b.take 8 = AFCMAGIC →
      parseAfcHeader b = .ok (afcHeaderOf b)) := by
  refine ⟨?_, ?_, ?_, ?_⟩
  · intro b hb
    simp [DTXMessage.parseMessageHeader, DTX_CONSTANTS.MESSAGE_HEADER_SIZE, hb]
  · intro b hb
    simp [DTXMessage.parseMessageHeader, DTX_CONSTANTS.MESSAGE_HEADER_SIZE,
      messageHeaderOf]
    omega
  · intro b hb
    simp [parseAfcHeader, hb]
  · intro b hb
    simp [parseAfcHeader, hb, afcHeaderOf]

/-- Witness for `framing_checks_amended` at concrete buffers. -/
theorem framing_checks_amended_witness :
    DTXMessage.parseMessageHeader [1, 2, 3] =
      .error "Buffer too small for DTX message header" ∧
    DTXMessage.parseMessageHeader (List.replicate 32 1) =
      .ok (messageHeaderOf (List.replicate 32 1)) ∧
    parseAfcHeader (List.replicate 40 0) = .error "Invalid AFC magic" ∧
    parseAfcHeader (AFCMAGIC ++ List.replicate 32 0) =
      .ok (afcHeaderOf (AFCMAGIC ++ List.replicate 32 0)) :=
  ⟨framing_checks_amended.1 _ (by decide),
    framing_checks_amended.2.1 _ (by decide),
    framing_checks_amended.2.2.1 _ (by decide),
    framing_checks_amended.2.2.2 _ (by decide)⟩

/-- C6, counterexample: the conversion maps `method_name` to
`method:name`, not to the colon-suffixed `method:name:` the claim states
(the source's own doc comment notwithstanding): `replace(/_/g, ':')` adds
no trailing colon. -/
theorem convertToSelector_no_trailing_colon :
    convertToSelector "method_name" = "method:name" ∧
    "method:name" ≠ "method:name:" :=
  ⟨by decide, by decide⟩

/-- C6, amended: `convertToSelector` replaces every underscore by a
colon and preserves a leading underscore marker; the colon-suffixed
remote-selector form therefore arises from call names that carry a
trailing underscore (as the in-repo callers do), for example
`enableConditionWithIdentifier_profileIdentifier_`. -/
theorem convertToSelector_underscore_to_colon :
    convertToSelector "method_name" = "method:name" ∧
    convertToSelector "_method_name" = "_method:name" ∧
    convertToSelector "method_name_" = "method:name:" ∧
    convertToSelector "_method_name_" = "_method:name:" ∧
    convertToSelector "enableConditionWithIdentifier_profileIdentifier_" =
      "enableConditionWithIdentifier:profileIdentifier:" ∧
    convertToSelector "availableConditionInducers" =
      "availableConditionInducers" :=
  ⟨by decide, by decide, by decide, by decide, by decide, by decide⟩

/-- C7: every encoded file-conduit packet carries
`entireLength = AFC_HEADER_SIZE + payload length`, and `thisLength`
equals `entireLength` for the override-free packets of `_doOperation`
while the WRITE packets of `fwrite` carry the fixed override 48. -/
theorem afc_packet_lengths :
    (∀ (op pn : Nat) (payload : List Nat), op < 18446744073709551616 →
      pn < 18446744073709551616 →
      40 + payload.length < 18446744073709551616 →
      parseAfcHeader (doOperationPacketHeader op pn payload) =
        .ok { magic := AFCMAGIC, entireLength := 40 + payload.length,
              thisLength := 40 + payload.length, packetNum := pn,
              operation := op }) ∧
    (∀ (handle pn : Nat) (chunk : List Nat),
      pn < 18446744073709551616 →
      48 + chunk.length < 18446744073709551616 →
      parseAfcHeader (fwriteChunkPacketHeader handle chunk pn) =
        .ok { magic := AFCMAGIC, entireLength := 40 + (8 + chunk.length),
              thisLength := AFC_WRITE_THIS_LENGTH, packetNum := pn,
              operation := AfcOpcode.WRITE }) := by
  constructor
  · intro op pn payload hop hpn hlen
    simp [doOperationPacketHeader, encodeHeader, AFCMAGIC, AFC_HEADER_SIZE,
      writeUInt64LE, parseAfcHeader, readUInt64LE, AfcHeader.mk.injEq]
    omega
  · intro handle pn chunk hpn hlen
    simp [fwriteChunkPacketHeader, encodeHeader, AFCMAGIC, AFC_HEADER_SIZE,
      AFC_WRITE_THIS_LENGTH, writeUInt64LE, parseAfcHeader, readUInt64LE,
      AfcOpcode.WRITE, AfcHeader.mk.injEq]
    omega

/-- Witness for `afc_packet_lengths` at concrete packets. -/
theorem afc_packet_lengths_witness :
    parseAfcHeader (doOperationPacketHeader AfcOpcode.GET_FILE_INFO 3
        [47, 116, 109, 112, 0]) =
      .ok { magic := AFCMAGIC, entireLength := 45, thisLength := 45,
            packetNum := 3, operation := AfcOpcode.GET_FILE_INFO } ∧
    parseAfcHeader (fwriteChunkPacketHeader 2 [1, 2, 3] 7) =
      .ok { magic := AFCMAGIC, entireLength := 51,
            thisLength := AFC_WRITE_THIS_LENGTH, packetNum := 7,
            operation := AfcOpcode.WRITE } :=
  ⟨afc_packet_lengths.1 _ _ _ (by decide) (by decide) (by decide),
    afc_packet_lengths.2 _ _ _ (by decide) (by decide)⟩


/-- C1: archive decoding terminates on every input — `decodeObjF` is
accepted by structural recursion, so `decode` is a total function — and in
particular the cyclic table (entry 1 references 2, entry 2 references 1)
decodes to null without looping or raising; a reference revisited while
still being resolved (present in the per-invocation visited set) decodes
to null; recursion deeper than the `MAX_DECODE_DEPTH` ceiling (1000)
returns null. -/
theorem nskeyedarchiver_cycle_safe :
    decode cyclicArchive = .null ∧
    (∀ (objects : List JSValue) (index : Int) (visited : List Int)
      (depth : Nat) (cache : Cache), MAX_DECODE_DEPTH < depth →
      decodeObject objects index visited depth cache = (.null, cache)) ∧
    (∀ (objects : List JSValue) (index : Int) (visited : List Int)
      (depth : Nat) (cache : Cache), depth ≤ MAX_DECODE_DEPTH →
      0 ≤ index → index < (objects.length : Int) → index ∈ visited →
      decodeObject objects index visited depth cache = (.null, cache)) := by
  refine ⟨rfl, ?_, ?_⟩
  · intro objects index visited depth cache h
    unfold decodeObject
    unfold MAX_DECODE_DEPTH at h
    have h2 : MAX_DECODE_DEPTH + 1 - depth = 0 := by
      unfold MAX_DECODE_DEPTH
      omega
    rw [h2]
    rfl
  · intro objects index visited depth cache hd h0 h1 hv
    unfold decodeObject
    unfold MAX_DECODE_DEPTH at hd ⊢
    obtain ⟨f, hf⟩ : ∃ f, 1000 + 1 - depth = f + 1 := ⟨1000 - depth, by omega⟩
    rw [hf, decodeObjF]
    rw [if_neg (by omega), if_pos hv]

/-- Witness for `nskeyedarchiver_cycle_safe` at concrete inputs. -/
theorem nskeyedarchiver_cycle_safe_witness :
    decodeObject [] 0 [] 1001 [] = (.null, []) ∧
    decodeObject [.null] 0 [0] 0 [] = (.null, []) :=
  ⟨nskeyedarchiver_cycle_safe.2.1 [] 0 [] 1001 [] (by decide),
    nskeyedarchiver_cycle_safe.2.2 [.null] 0 [0] 0 [] (by decide) (by decide)
      (by decide) (by decide)⟩

/-! Helper lemmas for the fragment-reassembly claim. -/

/-- A non-final fragment on a regular channel only extends `packetData`. -/
theorem addFragment_nonfinal_pos (f : ChannelFragmenter)
    (h : DTXMessageHeader) (chunk : List Nat) (hc : h.channelCode ≥ 0)
    (hnf : (h.fragmentId : Int) ≠ (h.fragmentCount : Int) - 1) :
    ChannelFragmenter.addFragment f h chunk =
      { f with packetData := f.packetData ++ chunk } := by
  simp [ChannelFragmenter.addFragment, hc, hnf]

/-- A non-final fragment on a stream channel only extends
`streamPacketData`. -/
theorem addFragment_nonfinal_neg (f : ChannelFragmenter)
    (h : DTXMessageHeader) (chunk : List Nat) (hc : ¬h.channelCode ≥ 0)
    (hnf : (h.fragmentId : Int) ≠ (h.fragmentCount : Int) - 1) :
    ChannelFragmenter.addFragment f h chunk =
      { f with streamPacketData := f.streamPacketData ++ chunk } := by
  simp [ChannelFragmenter.addFragment, hc, hnf]

/-- Feeding only non-final regular-channel fragments accumulates their
payloads and completes no message. -/
theorem feed_nonfinal_pos (frs : List (DTXMessageHeader × List Nat)) :
    ∀ f : ChannelFragmenter,
    (∀ p ∈ frs, p.1.channelCode ≥ 0 ∧
      (p.1.fragmentId : Int) ≠ (p.1.fragmentCount : Int) - 1) →
    ChannelFragmenter.feed f frs =
      { f with packetData := f.packetData ++ (frs.map Prod.snd).flatten } := by
  induction frs with
  | nil => intro f _; simp [ChannelFragmenter.feed]
  | cons p rest ih =>
    intro f hall
    have hp := hall p (by simp)
    have hrest : ∀ q ∈ rest, q.1.channelCode ≥ 0 ∧
        (q.1.fragmentId : Int) ≠ (q.1.fragmentCount : Int) - 1 :=
      fun q hq => hall q (by simp [hq])
    simp only [ChannelFragmenter.feed, List.foldl_cons]
    rw [show (List.foldl (fun acc p => ChannelFragmenter.addFragment acc p.1 p.2)
        (ChannelFragmenter.addFragment f p.1 p.2) rest) =
        ChannelFragmenter.feed (ChannelFragmenter.addFragment f p.1 p.2) rest from rfl]
    rw [ih _ hrest, addFragment_nonfinal_pos f p.1 p.2 hp.1 hp.2]
    simp

/-- Stream-channel version of `feed_nonfinal_pos`. -/
theorem feed_nonfinal_neg (frs : List (DTXMessageHeader × List Nat)) :
    ∀ f : ChannelFragmenter,
    (∀ p ∈ frs, ¬p.1.channelCode ≥ 0 ∧
      (p.1.fragmentId : Int) ≠ (p.1.fragmentCount : Int) - 1) →
    ChannelFragmenter.feed f frs =
      { f with streamPacketData :=
          f.streamPacketData ++ (frs.map Prod.snd).flatten } := by
  induction frs with
  | nil => intro f _; simp [ChannelFragmenter.feed]
  | cons p rest ih =>
    intro f hall
    have hp := hall p (by simp)
    have hrest : ∀ q ∈ rest, ¬q.1.channelCode ≥ 0 ∧
        (q.1.fragmentId : Int) ≠ (q.1.fragmentCount : Int) - 1 :=
      fun q hq => hall q (by simp [hq])
    simp only [ChannelFragmenter.feed, List.foldl_cons]
    rw [show (List.foldl (fun acc p => ChannelFragmenter.addFragment acc p.1 p.2)
        (ChannelFragmenter.addFragment f p.1 p.2) rest) =
        ChannelFragmenter.feed (ChannelFragmenter.addFragment f p.1 p.2) rest from rfl]
    rw [ih _ hrest, addFragment_nonfinal_neg f p.1 p.2 hp.1 hp.2]
    simp

/-- The payloads of an in-order fragment sequence are the chunks. -/
theorem mkFragments_map_snd (base : DTXMessageHeader) (n : Nat) (c : Int) :
    ∀ (start : Nat) (chunks : List (List Nat)),
    (mkFragments base n c start chunks).map Prod.snd = chunks := by
  intro start chunks
  induction chunks generalizing start with
  | nil => simp [mkFragments]
  | cons ch rest ih => simp [mkFragments, ih]

/-- A prefix of an in-order fragment sequence carries the chunk prefix. -/
theorem mkFragments_take (base : DTXMessageHeader) (n : Nat) (c : Int) :
    ∀ (m start : Nat) (chunks : List (List Nat)),
    (mkFragments base n c start chunks).take m =
      mkFragments base n c start (chunks.take m) := by
  intro m
  induction m with
  | zero => intro start chunks; simp [mkFragments]
  | succ m ih =>
    intro start chunks
    cases chunks with
    | nil => simp [mkFragments]
    | cons ch rest => simp [mkFragments, ih]

/-- Splitting off the final fragment of an in-order sequence. -/
theorem mkFragments_append_singleton (base : DTXMessageHeader) (n : Nat)
    (c : Int) :
    ∀ (start : Nat) (l : List (List Nat)) (x : List Nat),
    mkFragments base n c start (l ++ [x]) =
      mkFragments base n c start l ++
        [(mkFragmentHeader base (start + l.length) n c, x)] := by
  intro start l
  induction l generalizing start with
  | nil => simp [mkFragments]
  | cons ch rest ih =>
    intro x
    simp only [List.cons_append, mkFragments, List.append_eq]
    rw [ih]
    have harith : start + 1 + rest.length = start + (rest.length + 1) := by omega
    simp only [List.length_cons, harith]

/-- Every fragment of an in-order sequence carries the channel code, the
total count, and a fragment id below `start + chunks.length`. -/
theorem mkFragments_mem (base : DTXMessageHeader) (n : Nat) (c : Int) :
    ∀ (start : Nat) (chunks : List (List Nat))
      (p : DTXMessageHeader × List Nat), p ∈ mkFragments base n c start chunks →
    p.1.channelCode = c ∧ p.1.fragmentCount = n ∧
      p.1.fragmentId < start + chunks.length := by
  intro start chunks
  induction chunks generalizing start with
  | nil => intro p hp; simp [mkFragments] at hp
  | cons ch rest ih =>
    intro p hp
    simp only [mkFragments, List.mem_cons] at hp
    rcases hp with h | h
    · subst h
      refine ⟨rfl, rfl, ?_⟩
      simp [mkFragmentHeader]
    · have := ih (start + 1) p h
      refine ⟨this.1, this.2.1, ?_⟩
      have := this.2.2
      simp only [List.length_cons]
      omega

/-- Before the final fragment arrives, no message is queued. -/
theorem feed_mkFragments_prefix (base : DTXMessageHeader) (c : Int)
    (chunks : List (List Nat)) (k : Nat) (hk : k + 1 < chunks.length) :
    (ChannelFragmenter.feed .empty
      ((mkFragments base chunks.length c 0 chunks).take (k + 1))).messages = [] := by
  rw [mkFragments_take]
  have hfr : ∀ p ∈ mkFragments base chunks.length c 0 (chunks.take (k + 1)),
      p.1.channelCode = c ∧
      (p.1.fragmentId : Int) ≠ (p.1.fragmentCount : Int) - 1 := by
    intro p hp
    have hm := mkFragments_mem base chunks.length c 0 (chunks.take (k + 1)) p hp
    refine ⟨hm.1, ?_⟩
    rw [hm.2.1]
    have hlen : (chunks.take (k + 1)).length = k + 1 := by
      simp
      omega
    have hid : p.1.fragmentId < k + 1 := by
      have := hm.2.2
      omega
    have : p.1.fragmentId < chunks.length - 1 := by omega
    have hpos : 1 ≤ chunks.length := by omega
    omega
  by_cases hc : c ≥ 0
  · rw [feed_nonfinal_pos _ _ (fun p hp => ⟨(hfr p hp).1 ▸ hc, (hfr p hp).2⟩)]
    rfl
  · rw [feed_nonfinal_neg _ _ (fun p hp => ⟨(hfr p hp).1 ▸ hc, (hfr p hp).2⟩)]
    rfl

/-- Feeding the whole in-order sequence queues exactly the concatenation
of the chunks and clears both accumulators. -/
theorem feed_mkFragments_full (base : DTXMessageHeader) (c : Int)
    (init : List (List Nat)) (last : List Nat) :
    ChannelFragmenter.feed .empty
        (mkFragments base (init ++ [last]).length c 0 (init ++ [last])) =
      { messages := [(init ++ [last]).flatten], packetData := [],
        streamPacketData := [] } := by
  rw [mkFragments_append_singleton]
  rw [show ChannelFragmenter.feed ChannelFragmenter.empty
      (mkFragments base (init ++ [last]).length c 0 init ++
        [(mkFragmentHeader base (0 + init.length) (init ++ [last]).length c, last)]) =
      ChannelFragmenter.addFragment
        (ChannelFragmenter.feed ChannelFragmenter.empty
          (mkFragments base (init ++ [last]).length c 0 init))
        (mkFragmentHeader base (0 + init.length) (init ++ [last]).length c)
        last from by
    simp [ChannelFragmenter.feed, List.foldl_append]]
  have hfr : ∀ p ∈ mkFragments base (init ++ [last]).length c 0 init,
      p.1.channelCode = c ∧
      (p.1.fragmentId : Int) ≠ (p.1.fragmentCount : Int) - 1 := by
    intro p hp
    have hm := mkFragments_mem base (init ++ [last]).length c 0 init p hp
    refine ⟨hm.1, ?_⟩
    rw [hm.2.1]
    have hid : p.1.fragmentId < init.length := by
      have := hm.2.2
      omega
    have hlen : (init ++ [last]).length = init.length + 1 := by simp
    omega
  have hfinal : ((mkFragmentHeader base (0 + init.length)
      (init ++ [last]).length c).fragmentId : Int) =
      ((mkFragmentHeader base (0 + init.length)
        (init ++ [last]).length c).fragmentCount : Int) - 1 := by
    simp [mkFragmentHeader]
  by_cases hc : c ≥ 0
  · rw [feed_nonfinal_pos _ _ (fun p hp => ⟨(hfr p hp).1 ▸ hc, (hfr p hp).2⟩)]
    simp [ChannelFragmenter.addFragment, ChannelFragmenter.empty,
      mkFragmentHeader, hc, hfinal, mkFragments_map_snd]
  · rw [feed_nonfinal_neg _ _ (fun p hp => ⟨(hfr p hp).1 ▸ hc, (hfr p hp).2⟩)]
    simp [ChannelFragmenter.addFragment, ChannelFragmenter.empty,
      mkFragmentHeader, hc, hfinal, mkFragments_map_snd]

/-- C2: for every channel code and every in-order fragment sequence
`0..n-1` carrying the given chunks, `get` returns null before the final
fragment has been fed; after the final fragment exactly one completed
message is queued, equal to the concatenation of the chunk payloads in
arrival order, and popping it leaves the fragmenter empty (both
accumulators and the queue). -/
theorem channel_fragmenter_reassembly (base : DTXMessageHeader) (c : Int)
    (chunks : List (List Nat)) (hne : chunks ≠ []) :
    (∀ k, k + 1 < chunks.length →
      ((ChannelFragmenter.feed .empty
        ((mkFragments base chunks.length c 0 chunks).take (k + 1))).get).1 =
        none) ∧
    (ChannelFragmenter.feed .empty
        (mkFragments base chunks.length c 0 chunks)).messages =
      [chunks.flatten] ∧
    (ChannelFragmenter.feed .empty
        (mkFragments base chunks.length c 0 chunks)).packetData = [] ∧
    (ChannelFragmenter.feed .empty
        (mkFragments base chunks.length c 0 chunks)).streamPacketData = [] ∧
    (ChannelFragmenter.feed .empty
        (mkFragments base chunks.length c 0 chunks)).get =
      (some chunks.flatten, .empty) := by
  obtain ⟨init, last, rfl⟩ : ∃ L b, chunks = L ++ [b] := by
    rcases List.eq_nil_or_concat chunks with h | ⟨L, b, h⟩
    · exact absurd h hne
    · exact ⟨L, b, by simpa [List.concat_eq_append] using h⟩
  refine ⟨?_, ?_, ?_, ?_, ?_⟩
  · intro k hk
    have hmsg := feed_mkFragments_prefix base c (init ++ [last]) k hk
    unfold ChannelFragmenter.get
    rw [hmsg]
  · rw [feed_mkFragments_full]
  · rw [feed_mkFragments_full]
  · rw [feed_mkFragments_full]
  · rw [feed_mkFragments_full]
    rfl

/-- Witness for `channel_fragmenter_reassembly`: three fragments on
channel 5. -/
theorem channel_fragmenter_reassembly_witness :
    ((ChannelFragmenter.feed .empty
      ((mkFragments sampleMessageHeader 3 5 0 [[1], [2, 3], [4]]).take 2)).get).1 =
      none ∧
    (ChannelFragmenter.feed .empty
        (mkFragments sampleMessageHeader 3 5 0 [[1], [2, 3], [4]])).get =
      (some [1, 2, 3, 4], .empty) := by
  have h := channel_fragmenter_reassembly sampleMessageHeader 5 [[1], [2, 3], [4]]
    (by decide)
  exact ⟨h.1 1 (by decide), h.2.2.2.2⟩
/-- C4, counterexample: an auxiliary item of unknown type (tag 5) makes
`parseAuxiliaryValue` throw, but `parseAuxiliaryStandard` catches that
throw (warns and breaks), so `recvMessage` delivers the partially parsed
auxiliary list — here the first item, value 7 — instead of raising. -/
theorem recvMessage_unknown_aux_type_not_fatal :
    parseAuxiliaryValue noPlistParser ((unknownAuxTypePacket.drop 16).take 36)
        5 36 = .error "Unknown auxiliary type" ∧
    recvMessageModel noPlistParser unknownAuxTypePacket =
      .ok (none, [.num 7]) :=
  ⟨rfl, rfl⟩

/-- C4, amended: an unsupported-compression flag in the payload header is
a fatal per-message error — `recvMessage` raises before delivering
anything — while an auxiliary item of unknown type is caught inside
`parseAuxiliaryStandard`, which stops parsing and returns the values
collected so far, and `recvMessage` delivers that partial result. -/
theorem recvMessage_error_policy_amended :
    (∀ (pb : PlistParser) (packetData : List Nat)
      (ph : DTXMessagePayloadHeader),
      DTXMessage.parsePayloadHeader packetData = .ok ph →
      (ph.flags &&& 0xff000) >>> 12 ≠ 0 →
      recvMessageModel pb packetData =
        .error "Compressed messages not supported") ∧
    recvMessageModel noPlistParser unknownAuxTypePacket =
      .ok (none, [.num 7]) := by
  constructor
  · intro pb packetData ph hph hc
    unfold recvMessageModel
    rw [hph]
    simp [hc]
  · rfl

/-- Witness for `recvMessage_error_policy_amended` at a concrete
compressed packet. -/
theorem recvMessage_error_policy_amended_witness :
    recvMessageModel noPlistParser compressedPacket =
      .error "Compressed messages not supported" :=
  recvMessage_error_policy_amended.1 noPlistParser compressedPacket
    { flags := 4096, auxiliaryLength := 0, totalLength := 0 }
    (by rfl) (by decide)

/-- C8: `rm` on a directory holding one file and one empty subdirectory
(all removals succeeding) deletes the file, then the subdirectory, then
the directory itself — the ghost removal log records exactly that order —
and returns an empty failure list with an empty final tree; `rm` with
`force` on a non-existent path returns an empty failure list without
raising, while without `force` the non-existent path is returned as the
single failed path. -/
theorem rm_recursive_delete :
    rmModel 10 demoTree [] "/d" false =
      .ok ([], [], ["/d/f", "/d/s", "/d"]) ∧
    (∀ (fuel : Nat) (fs : AfcFS) (log : List String) (p : String),
      ¬fsExists fs p = true →
      rmModel (fuel + 1) fs log p true = .ok ([], fs, log)) ∧
    (∀ (fuel : Nat) (fs : AfcFS) (log : List String) (p : String),
      ¬fsExists fs p = true →
      rmModel (fuel + 1) fs log p false = .ok ([p], fs, log)) := by
  refine ⟨by rfl, ?_, ?_⟩
  · intro fuel fs log p h
    rw [rmModel]
    simp [h]
  · intro fuel fs log p h
    rw [rmModel]
    simp [h]

/-- Witness for `rm_recursive_delete` on an empty tree. -/
theorem rm_recursive_delete_witness :
    rmModel 1 [] [] "/missing" true = .ok ([], [], []) ∧
    rmModel 1 [] [] "/missing" false = .ok (["/missing"], [], []) :=
  ⟨rm_recursive_delete.2.1 0 [] [] "/missing" (by decide),
    rm_recursive_delete.2.2 0 [] [] "/missing" (by decide)⟩


/-- Setting then getting the same key on the channel cache. -/
theorem chanGet_chanSet (c : List (String × Channel)) (k : String)
    (v : Channel) : chanGet (chanSet c k v) k = some v := by
  induction c with
  | nil => simp [chanGet, chanSet]
  | cons p rest ih =>
    by_cases h : p.1 = k
    · simp [chanGet, chanSet, h]
    · simp [chanGet, chanSet, h, ih]

/-- C9: after a successful `makeChannel(identifier)`, a second call with
the same identifier returns the identical channel and the identical state
— in particular its ghost send log is unchanged, so no second
channel-request message is sent; a cache hit leaves the state untouched;
a cache miss allocates the next sequential channel code and the request
message it sends carries that code. -/
theorem makeChannel_idempotent (s : DVTState) (identifier : String)
    (reply : JSValue) (ch : Channel) (s' : DVTState)
    (hok : makeChannel s identifier reply = .ok (ch, s')) :
    (∀ reply2 : JSValue, makeChannel s' identifier reply2 = .ok (ch, s')) ∧
    (chanGet s.channelCache identifier = some ch → s' = s) ∧
    (chanGet s.channelCache identifier = none →
      ch.channelCode = ((s.lastChannelCode + 1 : Nat) : Int) ∧
      s'.lastChannelCode = s.lastChannelCode + 1 ∧
      s'.sent = s.sent ++
        [{ channel := 0,
           selector := some "_requestChannelWithCode:identifier:",
           args := some [MessageAuxValue.int32 (s.lastChannelCode + 1),
                         MessageAuxValue.obj (.str identifier)],
           expectsReply := true }]) := by
  by_cases hh : s.isHandshakeComplete
  case neg =>
    unfold makeChannel at hok
    rw [if_pos (by simp [hh])] at hok
    cases hok
  case pos =>
    cases hc : chanGet s.channelCache identifier with
    | some ch0 =>
      unfold makeChannel at hok
      rw [if_neg (by simp [hh]), hc] at hok
      simp only [Except.ok.injEq, Prod.mk.injEq] at hok
      obtain ⟨hch, hs⟩ := hok
      subst hch
      subst hs
      refine ⟨?_, fun _ => rfl, ?_⟩
      · intro reply2
        unfold makeChannel
        rw [if_neg (by simp [hh]), hc]
      · intro hnone
        simp [hc] at hnone
    | none =>
      unfold makeChannel at hok
      rw [if_neg (by simp [hh]), hc] at hok
      cases hcheck : checkForNSError reply "Failed to create channel" with
      | error e =>
        rw [hcheck] at hok
        cases hok
      | ok u =>
        rw [hcheck] at hok
        simp only [Except.ok.injEq, Prod.mk.injEq] at hok
        obtain ⟨hch, hs⟩ := hok
        refine ⟨?_, ?_, ?_⟩
        · intro reply2
          unfold makeChannel
          have hh' : s'.isHandshakeComplete = true := by
            rw [← hs]
            simpa [sendMessageSt] using hh
          rw [if_neg (by simp [hh'])]
          have hget : chanGet s'.channelCache identifier = some ch := by
            rw [← hs, ← hch]
            simpa [sendMessageSt] using
              chanGet_chanSet s.channelCache identifier
                { channelCode := ((s.lastChannelCode + 1 : Nat) : Int) }
          rw [hget]
        · intro hsome
          simp [hc] at hsome
        · intro _
          refine ⟨by rw [← hch], ?_, ?_⟩
          · rw [← hs]
            simp [sendMessageSt]
          · rw [← hs]
            simp [sendMessageSt]
  

/-- Witness for `makeChannel_idempotent` on a fresh connection state. -/
theorem makeChannel_idempotent_witness :
    makeChannel demoDVTState "demo.service" (.str "ok") =
      .ok ({ channelCode := 1 }, demoDVTStateAfter) ∧
    makeChannel demoDVTStateAfter "demo.service" (.str "other") =
      .ok ({ channelCode := 1 }, demoDVTStateAfter) :=
  ⟨rfl,
    (makeChannel_idempotent demoDVTState "demo.service" (.str "ok")
      { channelCode := 1 } demoDVTStateAfter rfl).1 (.str "other")⟩

/-- C10: `exists` returns true exactly when `stat` succeeds and false
whenever `stat` throws for any reason — a transport failure, a
non-success status (not only object-not-found) or a malformed response —
and, being a total Boolean function of the outcome, never propagates an
error to the caller. -/
theorem exists_swallows_stat_errors (resp : TransportOutcome) :
    (existsModel resp = true ↔ ∃ st, statModel resp = .ok st) ∧
    (∀ e, statModel resp = .error e → existsModel resp = false) ∧
    (∀ e, resp = .error e → existsModel resp = false) ∧
    (∀ status data, resp = .ok (status, data) → status ≠ AfcError.SUCCESS →
      existsModel resp = false) := by
  refine ⟨?_, ?_, ?_, ?_⟩
  · constructor
    · intro ht
      cases h : statModel resp with
      | ok st => exact ⟨st, rfl⟩
      | error e =>
        unfold existsModel at ht
        rw [h] at ht
        cases ht
    · rintro ⟨st, hst⟩
      unfold existsModel
      rw [hst]
  · intro e he
    unfold existsModel
    rw [he]
  · intro e he
    subst he
    unfold existsModel statModel doOperationResult
    rfl
  · intro status data hre hs
    subst hre
    unfold existsModel statModel doOperationResult
    unfold AfcError.SUCCESS at hs
    by_cases ho : status = 8
    · simp [hs, ho, AfcError.OBJECT_NOT_FOUND, AfcError.SUCCESS]
    · simp [hs, ho, AfcError.OBJECT_NOT_FOUND, AfcError.SUCCESS]

/-- Witness for `exists_swallows_stat_errors`: a connection failure and
a not-found status both yield false. -/
theorem exists_swallows_stat_errors_witness :
    existsModel (.error "connection reset") = false ∧
    existsModel (.ok (AfcError.OBJECT_NOT_FOUND, [])) = false :=
  ⟨(exists_swallows_stat_errors (.error "connection reset")).2.2.1
      "connection reset" rfl,
    (exists_swallows_stat_errors (.ok (AfcError.OBJECT_NOT_FOUND, []))).2.2.2
      AfcError.OBJECT_NOT_FOUND [] rfl (by decide)⟩


end Spec2Proof
